import Mathlib

/-!
Verification of the dynamic 3D Delaunay triangulation kernel of the cx3d/biodynamo
repository.  The C++ sources are shallowly embedded: each definition below mirrors
one function of the repository (file and line references are given in the doc
comments).  C++ `double` values are modelled as exact rationals: every claim
settled here concerns the algebraic / control-flow structure of the code, not
floating-point rounding.
-/

namespace cx3d

/-- C++ `double`, modelled as an exact rational number. -/
abbrev R := ℚ

/-- `Rational` (rational.cc): in the shipped code the class carries a single
`double value_` (the big-integer numerator/denominator representation is
commented out throughout the file). -/
structure Rational where
  value : R
deriving DecidableEq

/-- Modelled from the spec: `STLUtil::sgn` (stl_util.h is not under src/) — the
standard sign function used by `Rational::compareTo`; the spec says `compareTo`
"returns the sign". -/
def sgn (x : R) : Int :=
  if 0 < x then 1 else if x < 0 then -1 else 0

/-- rational.cc:72-83, `Rational::subtract`: the live line 81 computes
`value_ + other->value_` (the subtracting big-integer body above it is
commented out). -/
def Rational.subtract (a other : Rational) : Rational :=
  ⟨a.value + other.value⟩

/-- rational.cc:85-96, `Rational::decreaseBy`: `value_ -= other->value_`. -/
def Rational.decreaseBy (a other : Rational) : Rational :=
  ⟨a.value - other.value⟩

/-- rational.cc:187-189, `Rational::compareTo`:
`STLUtil::sgn(this->subtract(other)->value_)`. -/
def Rational.compareTo (a other : Rational) : Int :=
  sgn (a.subtract other).value

/-- rational.cc:41-43, `Rational::isZero`: `std::abs(value_) < 1e-10`. -/
def Rational.isZero (r : Rational) : Bool :=
  decide (|r.value| < (1 : R) / 10000000000)

/-- edge.cc:744-748, `SpaceNode::createNewCheckingIndex`:
`checking_index_ = (checking_index_ + 1) % 2000000000; return checking_index_;`.
The stored counter and the returned value coincide, so the function is embedded
as a map from the previous counter value to the next one. -/
def createNewCheckingIndex (checking_index : Nat) : Nat :=
  (checking_index + 1) % 2000000000

/-- A `SpaceNode` as seen from `Edge`: its identity and the opaque user-object
handle (`content_`), both rendered as numeric ids since the code compares them
by pointer identity only. -/
structure SpaceNodeRef where
  id : Nat
  userObject : Nat
deriving DecidableEq

/-- An `Edge` (edge.cc): two endpoint references `a_`, `b_`, each a possibly
null `shared_ptr`. -/
structure Edge where
  a : Option SpaceNodeRef
  b : Option SpaceNodeRef
deriving DecidableEq

/-- Outcome of `Edge::getOpposite` (edge.cc:23-34).  `returned p` is a normal
return of the pointer `p`; `fellThrough` marks control reaching the final
`else` branch, where the `EdgeNotIncident` throw is commented out
(`//fnoexceptionthrow std::invalid_argument(...)`) and the non-void function
ends without returning a value and without raising any error. -/
inductive OppositeResult where
  | returned (node : Option SpaceNodeRef)
  | fellThrough
deriving DecidableEq

/-- edge.cc:23-34, `Edge::getOpposite`: `if (node == a_) return b_; else if
(node == b_) return a_; else { /* throw commented out */ }`. -/
def Edge.getOpposite (e : Edge) (node : Option SpaceNodeRef) : OppositeResult :=
  if node = e.a then .returned e.b
  else if node = e.b then .returned e.a
  else .fellThrough

/-- edge.cc:36-46, `Edge::getOppositeElement`: when both endpoint pointers are
non-null, returns `b_->getUserObject()` if `element == a_->getUserObject()`
and `a_->getUserObject()` in every other case; otherwise returns a null
pointer. -/
def Edge.getOppositeElement (e : Edge) (element : Nat) : Option Nat :=
  match e.a, e.b with
  | some a, some b =>
      if element = a.userObject then some b.userObject else some a.userObject
  | _, _ => none

/-- Claim C1: the claim says `Rational::subtract(a, b)` returns a - b and
`Rational::compareTo(a, b)` the sign of a - b.  The code adds instead
(rational.cc:81): at a = b = 1 it yields 2 and sign +1 where the claim demands
0 and sign 0 (the sibling `decreaseBy` and the commented-out big-integer body
show the intended subtraction). -/
theorem c1_subtract_adds :
    (Rational.subtract ⟨1⟩ ⟨1⟩).value = 2
  ∧ Rational.compareTo ⟨1⟩ ⟨1⟩ = 1
  ∧ (Rational.decreaseBy ⟨1⟩ ⟨1⟩).value = 0 := by
  refine ⟨?_, ?_, ?_⟩ <;> norm_num [Rational.subtract, Rational.decreaseBy,
    Rational.compareTo, sgn]

/-- Claim C8, counterexample: `isZero` is not an exact-zero test.  The nonzero
dyadic value 1/2^40 (exactly representable as a C++ double) satisfies
`std::abs(value_) < 1e-10`, so `isZero` returns true on it. -/
theorem c8_isZero_not_exact :
    Rational.isZero ⟨1 / 2 ^ 40⟩ = true ∧ ((1 : R) / 2 ^ 40) ≠ 0 := by
  constructor
  · rw [Rational.isZero, decide_eq_true_eq, abs_of_pos (by norm_num)]
    norm_num
  · norm_num

/-- Claim C8, amended: `Rational::isZero(r)` returns true iff the stored value
lies strictly within the tolerance 1e-10 of zero, i.e. -1e-10 < value < 1e-10
(rational.cc:41-43). -/
theorem c8_isZero_tolerance (q : R) :
    Rational.isZero ⟨q⟩ = true ↔
      -((1 : R) / 10000000000) < q ∧ q < (1 : R) / 10000000000 := by
  simp only [Rational.isZero, decide_eq_true_eq]
  exact abs_lt

/-- Witness for `c8_isZero_tolerance` at the concrete value 0. -/
theorem c8_witness : Rational.isZero ⟨0⟩ = true :=
  (c8_isZero_tolerance 0).mpr (by norm_num)

/-- Claim C7, counterexample: the checking index is not monotone within a pass.
Two consecutive allocations inside one restoration pass, starting from the
session counter value 1999999998, yield 1999999999 and then 0: the second
allocation decreases the index. -/
theorem c7_counterexample :
    createNewCheckingIndex (createNewCheckingIndex 1999999998)
      < createNewCheckingIndex 1999999998 := by
  norm_num [createNewCheckingIndex]

/-- Claim C7, amended: each allocation returns the previous value plus one
reduced modulo 2000000000, hence always stays ≤ 2·10⁹; successive allocations
increase the index except at the wrap from 1999999999 to 0, where it
decreases. -/
theorem c7_createNewCheckingIndex (i : Nat) :
    createNewCheckingIndex i = (i + 1) % 2000000000
  ∧ createNewCheckingIndex i ≤ 2000000000
  ∧ (i + 1 < 2000000000 → createNewCheckingIndex i = i + 1) := by
  refine ⟨rfl, ?_, fun h => Nat.mod_eq_of_lt h⟩
  exact le_of_lt (lt_of_lt_of_le (Nat.mod_lt _ (by norm_num)) (by norm_num))

/-- Witness for `c7_createNewCheckingIndex` at the concrete counter value 41. -/
theorem c7_witness : createNewCheckingIndex 41 = 42 :=
  (c7_createNewCheckingIndex 41).2.2 (by norm_num)

/-- Claim C9: `Edge::getOpposite` does return the other endpoint when the node
is an endpoint, but for a non-incident node control reaches the branch whose
`EdgeNotIncident` throw is commented out (edge.cc:30-33): the function falls
off its end without surfacing any error (undefined behaviour).  Evaluated at
the edge (node 1, node 2) and the non-incident node 3. -/
theorem c9_getOpposite_fellThrough :
    Edge.getOpposite ⟨some ⟨1, 10⟩, some ⟨2, 20⟩⟩ (some ⟨3, 30⟩) = .fellThrough
  ∧ Edge.getOpposite ⟨some ⟨1, 10⟩, some ⟨2, 20⟩⟩ (some ⟨1, 10⟩)
      = .returned (some ⟨2, 20⟩)
  ∧ Edge.getOpposite ⟨some ⟨1, 10⟩, some ⟨2, 20⟩⟩ (some ⟨2, 20⟩)
      = .returned (some ⟨1, 10⟩) := by
  refine ⟨?_, ?_, ?_⟩ <;> rfl

/-- Claim C10: `Edge::getOppositeElement(element)` with both endpoints non-null
returns endpoint b's user object when `element` is endpoint a's user object and
endpoint a's user object in every other case (including when `element` belongs
to neither endpoint); with a null endpoint reference it returns a null
pointer. -/
theorem c10_getOppositeElement :
    ∀ (a b : SpaceNodeRef) (x : Nat),
      (Edge.getOppositeElement ⟨some a, some b⟩ x
        = some (if x = a.userObject then b.userObject else a.userObject))
    ∧ (∀ y : Option SpaceNodeRef,
        Edge.getOppositeElement ⟨none, y⟩ x = none
      ∧ Edge.getOppositeElement ⟨y, none⟩ x = none) := by
  intro a b x
  refine ⟨?_, fun y => ⟨rfl, ?_⟩⟩
  · by_cases h : x = a.userObject <;> simp [Edge.getOppositeElement, h]
  · cases y <;> rfl

/-- One entry of a node's `adjacent_tetrahedra_` list, as consumed by
`SpaceNode::checkIfTriangulationIsStillValid` (edge.cc:807-836).  The geometric
leaf predicates called there are implemented in tetrahedron.cc and
triangle_3d.cc, which are not under src/, so they appear as fields:
`isFlat` is `tetrahedron->isFlat()`, `isInfinite` is
`tetrahedron->isInfinite()`, `innerAllInfinite` records whether all four
`getAdjacentTetrahedron` results of `tetrahedron->getAdjacentTetrahedron(0)`
(the inner, finite neighbor) are infinite, and `remainsOnSameSide` records
`triangle->trulyOnSameSide(position_, new_position)` for the triangle opposite
the moving node. -/
structure IncidentTet where
  isFlat : Bool
  isInfinite : Bool
  innerAllInfinite : Bool
  remainsOnSameSide : Bool
deriving DecidableEq

/-- edge.cc:807-836, `SpaceNode::checkIfTriangulationIsStillValid`, iterating
over `adjacent_tetrahedra_` in list order: a flat tetrahedron returns false at
once; an infinite tetrahedron returns the inner-neighbor pattern value at once
(true or false, without looking at later entries); a finite non-flat
tetrahedron continues the loop if the node remains on the same side of the
opposite triangle and returns false otherwise (the `testPosition` call in that
branch cannot alter the result: its throw is disabled in the port). -/
def checkIfTriangulationIsStillValid : List IncidentTet → Bool
  | [] => true
  | t :: rest =>
    if t.isFlat then false
    else if t.isInfinite then t.innerAllInfinite
    else if t.remainsOnSameSide then checkIfTriangulationIsStillValid rest
    else false

/-- edge.cc:394-422, `SpaceNode::moveTo`: the fast path (listeners, position
update in place, `restoreDelaunay`) is taken iff
`checkIfTriangulationIsStillValid(new_position)` returns true. -/
def moveToTakesFastPath (tets : List IncidentTet) : Bool :=
  checkIfTriangulationIsStillValid tets

/-- The condition stated by claim C3, following the spec's words: every
incident tetrahedron is either (a) non-flat (and finite) with the node
remaining on the same side of its opposite triangle, or (b) infinite with all
four neighbors of its inner neighbor infinite. -/
def everyIncidentTetLocallyValid (tets : List IncidentTet) : Prop :=
  ∀ t ∈ tets,
    (t.isFlat = false ∧ t.isInfinite = false ∧ t.remainsOnSameSide = true)
  ∨ (t.isInfinite = true ∧ t.innerAllInfinite = true)

/-- Abbreviation used in the C3 characterization: a finite, non-flat
tetrahedron for which the node stays on the same side. -/
def passesFiniteCheck (t : IncidentTet) : Prop :=
  t.isFlat = false ∧ t.isInfinite = false ∧ t.remainsOnSameSide = true
/-- The acceptance condition of the sequential scan in
`checkIfTriangulationIsStillValid`, stated declaratively: either every incident
tetrahedron is finite, non-flat and side-preserving, or some prefix of such
tetrahedra is followed by an infinite tetrahedron whose inner neighbor has all
four neighbors infinite (entries after it are never inspected by the loop). -/
def scanAccepts (l : List IncidentTet) : Prop :=
  (∀ t ∈ l, passesFiniteCheck t)
  ∨ ∃ pre t rest, l = pre ++ t :: rest
      ∧ (∀ u ∈ pre, passesFiniteCheck u)
      ∧ t.isFlat = false ∧ t.isInfinite = true ∧ t.innerAllInfinite = true

lemma scanAccepts_nil : scanAccepts [] :=
  Or.inl (by simp)

lemma scanAccepts_cons (t : IncidentTet) (rest : List IncidentTet) :
    scanAccepts (t :: rest) ↔
      (passesFiniteCheck t ∧ scanAccepts rest)
    ∨ (t.isFlat = false ∧ t.isInfinite = true ∧ t.innerAllInfinite = true) := by
  constructor
  · rintro (hall | ⟨pre, u, tail, heq, hpre, hu⟩)
    · exact Or.inl ⟨hall t (by simp),
        Or.inl fun v hv => hall v (List.mem_cons_of_mem _ hv)⟩
    · cases pre with
      | nil =>
        simp only [List.nil_append, List.cons.injEq] at heq
        refine Or.inr ?_
        rw [heq.1]
        exact hu
      | cons p ps =>
        simp only [List.cons_append, List.cons.injEq] at heq
        refine Or.inl ⟨?_, Or.inr ⟨ps, u, tail, heq.2,
          fun v hv => hpre v (List.mem_cons_of_mem _ hv), hu⟩⟩
        rw [heq.1]
        exact hpre p (by simp)
  · rintro (⟨ht, hrest⟩ | hinf)
    · rcases hrest with hall | ⟨pre, u, tail, heq, hpre, hu⟩
      · refine Or.inl ?_
        intro v hv
        rcases List.mem_cons.mp hv with h1 | h2
        · rw [h1]; exact ht
        · exact hall v h2
      · refine Or.inr ⟨t :: pre, u, tail, by rw [heq, List.cons_append], ?_, hu⟩
        intro v hv
        rcases List.mem_cons.mp hv with h1 | h2
        · rw [h1]; exact ht
        · exact hpre v h2
    · exact Or.inr ⟨[], t, rest, by simp, by simp, hinf⟩

/-- Claim C3, counterexample: with the incident list consisting of an infinite
tetrahedron whose inner-neighbor pattern holds followed by a flat tetrahedron,
`moveTo` takes the fast path (the loop returns true at the first entry, never
inspecting the second), while the claim's "for every incident tetrahedron"
condition fails at the flat tetrahedron. -/
theorem c3_counterexample :
    moveToTakesFastPath
      [⟨false, true, true, false⟩, ⟨true, false, false, false⟩] = true
  ∧ ¬ everyIncidentTetLocallyValid
      [⟨false, true, true, false⟩, ⟨true, false, false, false⟩] := by
  constructor
  · rfl
  · intro h
    have hflat := h ⟨true, false, false, false⟩ (by simp)
    simp at hflat

/-- Claim C3, amended: `moveTo` takes the fast path iff the incidence list,
scanned in order, accepts (`scanAccepts`): either every incident tetrahedron is
finite, non-flat and side-preserving, or a prefix of such tetrahedra is
followed by an infinite tetrahedron whose inner neighbor has all four
neighbors infinite; tetrahedra after that infinite one are never checked, so
the code does not decide the claim's "for every incident tetrahedron"
condition. -/
theorem c3_fastPath_characterization (tets : List IncidentTet) :
    moveToTakesFastPath tets = true ↔ scanAccepts tets := by
  rw [moveToTakesFastPath]
  induction tets with
  | nil => simpa [checkIfTriangulationIsStillValid] using scanAccepts_nil
  | cons t rest ih =>
    rw [checkIfTriangulationIsStillValid, scanAccepts_cons]
    cases hf : t.isFlat with
    | true => simp [hf, passesFiniteCheck]
    | false =>
      cases hi : t.isInfinite with
      | true => simp [hf, hi, passesFiniteCheck]
      | false =>
        cases hs : t.remainsOnSameSide with
        | true => simp [hf, hi, hs, passesFiniteCheck, ih]
        | false => simp [hf, hi, hs, passesFiniteCheck]

/-- Witness for `c3_fastPath_characterization`: a single well-behaved finite
tetrahedron makes `moveTo` take the fast path. -/
theorem c3_witness :
    moveToTakesFastPath [⟨false, false, false, true⟩] = true :=
  (c3_fastPath_characterization _).mpr (Or.inl (by
    intro t ht
    simp only [List.mem_singleton] at ht
    rw [ht]
    exact ⟨rfl, rfl, rfl⟩))
/-- One candidate third tetrahedron of the inner `for j` loop of
`SpaceNode::restoreDelaunay` (edge.cc:562-587), i.e. one index j ≠ i of the
active tetrahedron's triangles.  The geometric leaf predicates
(tetrahedron.cc is not under src/) appear as fields: `neighborOfTi` is
`tetrahedron_j->isNeighbor(tetrahedron_i)`, `oppJNonNull` is
`tet_adjacent_nodes[j] != nullptr`, `jFlat` is `tetrahedron_j->isFlat()`,
`tiNeqTj` is `tetrahedron_i != tetrahedron_j`, and `insideJ` is
`tetrahedron_j->isTrulyInsideSphere(opp_j->getPosition())`. -/
structure JNeighbor where
  neighborOfTi : Bool
  oppJNonNull : Bool
  jFlat : Bool
  tiNeqTj : Bool
  insideJ : Bool
deriving DecidableEq

/-- The data consulted by one iteration of restoreDelaunay's triangle loop
(edge.cc:548-620) for a fixed pair (tetrahedron, triangle i): `aFlat` is
`tetrahedron->isFlat()`, `iFlat` is `tetrahedron_i->isFlat()` where
`tetrahedron_i` is the opposite tetrahedron across triangle i, `nodeINonNull`
and `aInsideNodeI` feed the violation test of line 556-558, `oppINonNull` is
`tet_adjacent_nodes[i] != nullptr`, `insideI` is
`tetrahedron_i->isTrulyInsideSphere(opp_i->getPosition())`, `aAdjacentToNodeI`
is `tetrahedron->isAdjacentTo(node_i)`, and `js` lists the inner-loop
candidates in the order j visits them. -/
structure FlipDecision where
  aFlat : Bool
  iFlat : Bool
  nodeINonNull : Bool
  aInsideNodeI : Bool
  oppINonNull : Bool
  insideI : Bool
  aAdjacentToNodeI : Bool
  js : List JNeighbor
deriving DecidableEq

/-- edge.cc:556-558: the Delaunay-violation test guarding the repair —
`node_i != nullptr && (tetrahedron->isTrulyInsideSphere(node_i->getPosition())
|| (tetrahedron->isFlat() && tetrahedron_i->isFlat()))`. -/
def violationDetected (d : FlipDecision) : Bool :=
  d.nodeINonNull && (d.aInsideNodeI || (d.aFlat && d.iFlat))

/-- edge.cc:568-583: the condition under which candidate j triggers a 3→2 flip
— `tetrahedron_j->isNeighbor(tetrahedron_i)`, both opposite nodes non-null,
and either all three tetrahedra flat with `tetrahedron_i != tetrahedron_j`, or
the two neighboring circumspheres containing each other's opposite nodes. -/
def jTriggers3to2 (d : FlipDecision) (j : JNeighbor) : Bool :=
  j.neighborOfTi && d.oppINonNull && j.oppJNonNull
    && ((d.aFlat && d.iFlat && j.jFlat && j.tiNeqTj) || (j.insideJ && d.insideI))

/-- The repair performed for one violating (tetrahedron, triangle) pair. -/
inductive Repair where
  | flip3to2
  | removeTwoFlat
  | flip2to3
  | noRepair
deriving DecidableEq

/-- edge.cc:559-607: the repair chosen by `restoreDelaunay` for a violating
(tetrahedron, triangle) pair.  The `for j` loop runs first and performs
`Tetrahedron::flip3to2` at the first triggering candidate (breaking out);
only if no candidate triggered (`new_tetrahedra.empty()`) does line 590 test
`tetrahedron->isFlat() && tetrahedron_i->isFlat() &&
tetrahedron->isAdjacentTo(node_i)` and call
`Tetrahedron::remove2FlatTetrahedra`; otherwise, if neither tetrahedron is
flat, `Tetrahedron::flip2to3` is attempted. -/
def chooseRepair (d : FlipDecision) : Repair :=
  if d.js.any (jTriggers3to2 d) then .flip3to2
  else if d.aFlat && d.iFlat && d.aAdjacentToNodeI then .removeTwoFlat
  else if !(d.aFlat || d.iFlat) then .flip2to3
  else .noRepair

/-- Claim C4, counterexample: the removal of two flat tetrahedra is not
preferred over every other flip involving the same tetrahedron.  In a state
where a Delaunay violation is detected, the flat-pair-removal condition holds
(both tetrahedra flat and adjacent to the opposite node), and one inner-loop
candidate is a third flat mutual neighbor, the code performs the 3→2 flip
(tried first, edge.cc:562-587), not `remove2FlatTetrahedra`. -/
theorem c4_counterexample :
    violationDetected
        ⟨true, true, true, false, true, false, true,
          [⟨true, true, true, true, false⟩]⟩ = true
  ∧ (let d : FlipDecision :=
        ⟨true, true, true, false, true, false, true,
          [⟨true, true, true, true, false⟩]⟩;
      d.aFlat && d.iFlat && d.aAdjacentToNodeI) = true
  ∧ chooseRepair
        ⟨true, true, true, false, true, false, true,
          [⟨true, true, true, true, false⟩]⟩ = .flip3to2
  ∧ Repair.flip3to2 ≠ Repair.removeTwoFlat := by
  refine ⟨rfl, rfl, rfl, by simp⟩

/-- Claim C4, amended: when a Delaunay violation is detected, the 3→2 flip
search runs first and is performed at the first triggering candidate; only
when no 3→2 candidate triggers is the removal of two flat tetrahedra
performed, and it is preferred over a 2→3 flip on the same triangle (a 2→3
flip is only attempted when no 3→2 candidate triggered and neither tetrahedron
is flat). -/
theorem c4_precedence (d : FlipDecision) :
    (d.js.any (jTriggers3to2 d) = true → chooseRepair d = .flip3to2)
  ∧ (d.js.any (jTriggers3to2 d) = false →
      d.aFlat = true → d.iFlat = true → d.aAdjacentToNodeI = true →
      chooseRepair d = .removeTwoFlat)
  ∧ (chooseRepair d = .flip2to3 →
      d.js.any (jTriggers3to2 d) = false ∧ d.aFlat = false ∧ d.iFlat = false) := by
  refine ⟨fun h => by simp [chooseRepair, h], fun h ha hi hadj => by
    simp [chooseRepair, h, ha, hi, hadj], fun h => ?_⟩
  rw [chooseRepair] at h
  by_cases h1 : d.js.any (jTriggers3to2 d) = true
  · simp [h1] at h
  · rw [Bool.not_eq_true] at h1
    refine ⟨h1, ?_⟩
    by_cases h2 : (d.aFlat && d.iFlat && d.aAdjacentToNodeI) = true
    · simp [h1, h2] at h
    · rw [Bool.not_eq_true] at h2
      simp only [h1, h2, Bool.false_eq_true, if_false] at h
      by_cases h3 : (!(d.aFlat || d.iFlat)) = true
      · rw [Bool.not_eq_true', Bool.or_eq_false_iff] at h3
        exact h3
      · simp [h3] at h

/-- Witness for `c4_precedence`: with no triggering 3→2 candidate and a flat
adjacent pair, `remove2FlatTetrahedra` is chosen. -/
theorem c4_witness :
    chooseRepair ⟨true, true, true, false, true, false, true, []⟩
      = .removeTwoFlat :=
  (c4_precedence ⟨true, true, true, false, true, false, true, []⟩).2.1
    rfl rfl rfl rfl

/-- A point of ℝ³ (`std::array<double, 3>`), modelled with exact coordinates. -/
abbrev Vec3 := R × R × R

/-- matrix.h `Matrix::subtract`, componentwise, as used to form the `delta`
passed to `nodeAboutToMove` (edge.cc:396). -/
def vecSubtract (u v : Vec3) : Vec3 :=
  (u.1 - v.1, u.2.1 - v.2.1, u.2.2 - v.2.2)

/-- The externally observable events of a `SpaceNode::moveTo` call: the five
listener callbacks fired by the code reached from `moveTo`, plus the single
write to `position_`.  Geometry-only work (walks, flips, `restoreDelaunay`,
`OpenTriangleOrganizer::triangulate`) fires no listener callback in the source
and contributes no event. -/
inductive MoveEvent where
  | nodeAboutToMove (delta : Vec3)
  | nodeMoved
  | nodeAboutToBeRemoved
  | nodeRemoved
  | nodeAboutToBeAdded
  | nodeAdded
  | setPosition (p : Vec3)
deriving DecidableEq

/-- Recognizes a `nodeAboutToMove` callback event. -/
def isNodeAboutToMove : MoveEvent → Bool
  | .nodeAboutToMove _ => true
  | _ => false

/-- Recognizes the `position_` update event. -/
def isSetPosition : MoveEvent → Bool
  | .setPosition _ => true
  | _ => false

/-- edge.cc:751-789, `SpaceNode::removeAndReturnCreatedTetrahedron`: fires
`nodeAboutToBeRemoved` once per listener at entry and `nodeRemoved` once per
listener at exit; no other listener callback is reached. -/
def removeNodeEvents (listeners : Nat) : List MoveEvent :=
  List.replicate listeners .nodeAboutToBeRemoved
    ++ List.replicate listeners .nodeRemoved

/-- edge.cc:471-518, `SpaceNode::insert`: fires `nodeAboutToBeAdded` once per
listener (inside `if (listeners_.size() != 0)`) and `nodeAdded` once per
listener at the end; no other listener callback is reached. -/
def insertNodeEvents (listeners : Nat) : List MoveEvent :=
  (if listeners ≠ 0 then List.replicate listeners .nodeAboutToBeAdded else [])
    ++ List.replicate listeners .nodeAdded

/-- edge.cc:394-422, `SpaceNode::moveTo`, as the sequence of observable events.
`valid` is the result of `checkIfTriangulationIsStillValid(new_position)`.
Fast path: `nodeAboutToMove(delta)` per listener with
`delta = Matrix::subtract(new_position, position_)`, then the `position_`
update, then `restoreDelaunay` (no events), then `nodeMoved` per listener.
Slow path: `removeAndReturnCreatedTetrahedron()` (its events), then the
`position_` update, then `insert` (its events); no `nodeAboutToMove` call
occurs anywhere in this branch. -/
def moveToEvents (valid : Bool) (listeners : Nat) (oldPos newPos : Vec3) :
    List MoveEvent :=
  if valid then
    List.replicate listeners (.nodeAboutToMove (vecSubtract newPos oldPos))
      ++ [.setPosition newPos] ++ List.replicate listeners .nodeMoved
  else
    removeNodeEvents listeners ++ [.setPosition newPos]
      ++ insertNodeEvents listeners

/-- Claim C5, counterexample: on the slow path (`valid = false`, one
listener), a completed `moveTo` never fires `nodeAboutToMove` at all — the
count of such callbacks is 0, not the "exactly once" the claim states for
both paths. -/
theorem c5_counterexample :
    (moveToEvents false 1 (0, 0, 0) (1, 2, 3)).countP isNodeAboutToMove = 0
  ∧ ¬ (moveToEvents false 1 (0, 0, 0) (1, 2, 3)).countP isNodeAboutToMove = 1
    := by
  refine ⟨rfl, by decide⟩

lemma countP_replicate_pos (n : Nat) (e : MoveEvent) (p : MoveEvent → Bool)
    (h : p e = true) : (List.replicate n e).countP p = n := by
  induction n with
  | zero => rfl
  | succ m ih => simp [List.replicate_succ, List.countP_cons, h, ih]

lemma countP_replicate_neg (n : Nat) (e : MoveEvent) (p : MoveEvent → Bool)
    (h : p e = false) : (List.replicate n e).countP p = 0 := by
  induction n with
  | zero => rfl
  | succ m ih => simp [List.replicate_succ, List.countP_cons, h, ih]

/-- Claim C5, amended: on the fast path `nodeAboutToMove` is fired exactly
once per listener, every fired delta equals new position minus old position,
and every `nodeAboutToMove` precedes the `position_` update (no such callback
occurs at or after it); on the slow path `nodeAboutToMove` is never fired —
the removal/insertion callbacks fire instead. -/
theorem c5_nodeAboutToMove (listeners : Nat) (oldPos newPos : Vec3) :
    ((moveToEvents true listeners oldPos newPos).countP isNodeAboutToMove
        = listeners)
  ∧ (∀ d : Vec3,
      MoveEvent.nodeAboutToMove d ∈ moveToEvents true listeners oldPos newPos →
      d = vecSubtract newPos oldPos)
  ∧ (((moveToEvents true listeners oldPos newPos).dropWhile
        (fun e => !isSetPosition e)).countP isNodeAboutToMove = 0)
  ∧ ((moveToEvents false listeners oldPos newPos).countP isNodeAboutToMove
        = 0) := by
  refine ⟨?_, ?_, ?_, ?_⟩
  · rw [moveToEvents, if_pos rfl]
    rw [List.countP_append, List.countP_append]
    rw [countP_replicate_pos _ _ _ rfl, countP_replicate_neg _ _ _ rfl]
    rfl
  · intro d hd
    rw [moveToEvents, if_pos rfl] at hd
    rcases List.mem_append.mp hd with h1 | h2
    · rcases List.mem_append.mp h1 with h3 | h4
      · have := List.eq_of_mem_replicate h3
        exact (MoveEvent.nodeAboutToMove.injEq _ _).mp this
      · simp at h4
    · have := List.eq_of_mem_replicate h2
      exact absurd this (by simp)
  · rw [moveToEvents, if_pos rfl]
    have hdrop : ∀ n : Nat,
        ((List.replicate n
            (MoveEvent.nodeAboutToMove (vecSubtract newPos oldPos))
          ++ [MoveEvent.setPosition newPos]
          ++ List.replicate listeners MoveEvent.nodeMoved).dropWhile
            (fun e => !isSetPosition e))
        = MoveEvent.setPosition newPos
            :: List.replicate listeners MoveEvent.nodeMoved := by
      intro n
      induction n with
      | zero => rfl
      | succ m ih => simpa [List.replicate_succ, List.dropWhile] using ih
    rw [hdrop listeners]
    have hset : isNodeAboutToMove (MoveEvent.setPosition newPos) = false := rfl
    rw [List.countP_cons, hset]
    simpa using countP_replicate_neg listeners MoveEvent.nodeMoved
      isNodeAboutToMove rfl
  · rw [moveToEvents, if_neg (by simp), removeNodeEvents, insertNodeEvents]
    have h1 := countP_replicate_neg listeners MoveEvent.nodeAboutToBeRemoved
      isNodeAboutToMove rfl
    have h2 := countP_replicate_neg listeners MoveEvent.nodeRemoved
      isNodeAboutToMove rfl
    have h3 := countP_replicate_neg listeners MoveEvent.nodeAboutToBeAdded
      isNodeAboutToMove rfl
    have h4 := countP_replicate_neg listeners MoveEvent.nodeAdded
      isNodeAboutToMove rfl
    by_cases h : listeners = 0
    · subst h
      rfl
    · rw [if_pos h]
      simp [List.countP_append, List.countP_cons, h1, h2, h3, h4,
        isNodeAboutToMove]

/-- Witness for `c5_nodeAboutToMove` at one listener and concrete positions:
the fast path fires `nodeAboutToMove` exactly once, and the delta it carries
is the new position minus the old. -/
theorem c5_witness :
    ((moveToEvents true 1 (0, 0, 0) (5, 5, 5)).countP isNodeAboutToMove = 1)
  ∧ ((5, 5, 5) : Vec3) = vecSubtract (5, 5, 5) (0, 0, 0) := by
  have h := c5_nodeAboutToMove 1 (0, 0, 0) (5, 5, 5)
  refine ⟨h.1, h.2.1 (5, 5, 5) ?_⟩
  have hv : vecSubtract ((5 : R), (5 : R), (5 : R)) (0, 0, 0) = (5, 5, 5) := by
    norm_num [vecSubtract]
  rw [moveToEvents, if_pos rfl, hv]
  simp

/-- The single failure kind relevant to motion and insertion. -/
inductive MoveError where
  | positionNotAllowed
deriving DecidableEq

/-- Modelled from the spec: `Tetrahedron::testPosition` — only its declaration
(tetrahedron.h:602-607) is under src/.  Per the spec it raises
PositionNotAllowed iff the position is exactly equal to an existing node's
position.  (In the shipped port even this throw is disabled — the declaration
carries `//fnoexceptionthrow` — which only widens the divergence recorded for
claim C2.) -/
def testPosition (existing : List Vec3) (p : Vec3) : Except MoveError Unit :=
  if p ∈ existing then .error .positionNotAllowed else .ok ()

/-- edge.cc:405-421, the slow path of `SpaceNode::moveTo`: the node is removed
(`removeAndReturnCreatedTetrahedron`), `auto oldPosition = position_` is
saved, `position_ = new_position` is assigned, and `insert(insert_position)`
runs.  The surrounding try/catch — the only code that would restore
`position_ = oldPosition` on a PositionNotAllowed failure — is commented out,
so `oldPosition` is never read: whether or not the walk inside `insert` hits
an exactly coincident node, the final `position_` is `new_position`.  The
result pairs the final `position_` with the error that `insert`'s walk would
raise. -/
def moveToSlowPath (oldPos newPos : Vec3) (existing : List Vec3) :
    Vec3 × Option MoveError :=
  match testPosition existing newPos with
  | .error e => (newPos, some e)
  | .ok _ => (newPos, none)

/-- Claim C2: moving a node from (0,0,0) to (1,1,1), where an existing node
sits exactly at (1,1,1), leaves `position_` at the duplicate position (1,1,1)
on the slow path — the revert to the old value demanded by the claim is
commented out in the source, so the state is not left unchanged. -/
theorem c2_slowPath_noRevert :
    moveToSlowPath (0, 0, 0) (1, 1, 1) [(1, 1, 1)]
      = ((1, 1, 1), some .positionNotAllowed)
  ∧ ((1, 1, 1) : Vec3) ≠ (0, 0, 0) := by
  refine ⟨by decide, by decide⟩

/-- The cross-section state of one `Edge`: the accumulated
`cross_section_area_` (edge.cc:19,119-121) together with the per-incident-
tetrahedron contributions currently registered on the tetrahedron side (each
tetrahedron stores its six per-edge shares; tetrahedron.cc is not under
src/).  The list holds (tetrahedron id, its current contribution to this
edge), newest first; a given tetrahedron registers at most once per edge, so
ids are looked up by first occurrence. -/
structure EdgeAcct where
  crossSectionArea : R
  contribs : List (Nat × R)
deriving DecidableEq

/-- edge.cc:16-21: a fresh `Edge` starts with `cross_section_area_(0.0)` and
no incident tetrahedra. -/
def initEdgeAcct : EdgeAcct := ⟨0, []⟩

/-- The operations through which a tetrahedron touches one edge's
cross-section area, each ending in a call to `Edge::changeCrossSectionArea`
(edge.cc:119-121, `cross_section_area_ += change`):
`attach t c` — on creation the tetrahedron adds its contribution c
(spec §4.1, edge.h doc of `changeCrossSectionArea`);
`detach t` — on removal it subtracts the contribution it currently stores;
`update t c` — `updateCrossSectionAreas` / `changeCrossSection`
(tetrahedron.h:380-397) recomputes the share and informs the edge of the
difference between the new and the stored value.  A `FlatTetrahedron` uses
these same operations with share 0 (flat_tetrahedron.h:143-146). -/
inductive AcctOp where
  | attach (tid : Nat) (c : R)
  | detach (tid : Nat)
  | update (tid : Nat) (c : R)
deriving DecidableEq

/-- First contribution registered under tetrahedron id `t`, if any. -/
def findContrib : List (Nat × R) → Nat → Option R
  | [], _ => none
  | p :: rest, t => if p.1 = t then some p.2 else findContrib rest t

/-- Drops the first contribution registered under id `t`. -/
def eraseContrib : List (Nat × R) → Nat → List (Nat × R)
  | [], _ => []
  | p :: rest, t => if p.1 = t then rest else p :: eraseContrib rest t

/-- Replaces the first contribution registered under id `t` by `c`. -/
def replaceContrib : List (Nat × R) → Nat → R → List (Nat × R)
  | [], _, _ => []
  | p :: rest, t, c =>
      if p.1 = t then (t, c) :: rest else p :: replaceContrib rest t c

/-- Modelled from the spec (the tetrahedron side lives in tetrahedron.cc,
which is not under src/): the effect of one tetrahedron-side operation on one
edge's cross-section state.  In each case the area moves by exactly the value
passed to `Edge::changeCrossSectionArea`: +c on creation, −(stored c) on
removal, (new − stored) on recomputation; operations naming an unregistered
tetrahedron do not occur in the code and are no-ops here. -/
def applyAcctOp (s : EdgeAcct) : AcctOp → EdgeAcct
  | .attach t c => ⟨s.crossSectionArea + c, (t, c) :: s.contribs⟩
  | .detach t =>
    match findContrib s.contribs t with
    | some c => ⟨s.crossSectionArea - c, eraseContrib s.contribs t⟩
    | none => s
  | .update t c2 =>
    match findContrib s.contribs t with
    | some c => ⟨s.crossSectionArea + (c2 - c), replaceContrib s.contribs t c2⟩
    | none => s

/-- The edge's cross-section state after a whole history of tetrahedron
creations, removals and recomputations, starting from a fresh edge. -/
def runAcctOps (ops : List AcctOp) : EdgeAcct :=
  ops.foldl applyAcctOp initEdgeAcct

/-- Sum of the contributions of the currently incident tetrahedra. -/
def contribSum (l : List (Nat × R)) : R :=
  (l.map Prod.snd).sum

lemma contribSum_erase (l : List (Nat × R)) (t : Nat) (c : R)
    (h : findContrib l t = some c) :
    contribSum (eraseContrib l t) = contribSum l - c := by
  induction l with
  | nil => simp [findContrib] at h
  | cons p rest ih =>
    by_cases hp : p.1 = t
    · rw [findContrib, if_pos hp] at h
      rw [eraseContrib, if_pos hp]
      have : p.2 = c := Option.some.inj h
      simp [contribSum, this]
    · rw [findContrib, if_neg hp] at h
      rw [eraseContrib, if_neg hp]
      simp only [contribSum, List.map_cons, List.sum_cons] at *
      rw [ih h]
      ring

lemma contribSum_replace (l : List (Nat × R)) (t : Nat) (c c2 : R)
    (h : findContrib l t = some c) :
    contribSum (replaceContrib l t c2) = contribSum l - c + c2 := by
  induction l with
  | nil => simp [findContrib] at h
  | cons p rest ih =>
    by_cases hp : p.1 = t
    · rw [findContrib, if_pos hp] at h
      rw [replaceContrib, if_pos hp]
      have : p.2 = c := Option.some.inj h
      simp only [contribSum, List.map_cons, List.sum_cons, this]
      ring
    · rw [findContrib, if_neg hp] at h
      rw [replaceContrib, if_neg hp]
      simp only [contribSum, List.map_cons, List.sum_cons] at *
      rw [ih h]
      ring

lemma applyAcctOp_preserves (s : EdgeAcct)
    (h : s.crossSectionArea = contribSum s.contribs) (op : AcctOp) :
    (applyAcctOp s op).crossSectionArea
      = contribSum (applyAcctOp s op).contribs := by
  cases op with
  | attach t c =>
    simp only [applyAcctOp, contribSum, List.map_cons, List.sum_cons]
    rw [h]
    simp only [contribSum]
    ring
  | detach t =>
    rw [applyAcctOp]
    cases hf : findContrib s.contribs t with
    | none => exact h
    | some c =>
      simp only
      rw [contribSum_erase s.contribs t c hf, h]
  | update t c2 =>
    rw [applyAcctOp]
    cases hf : findContrib s.contribs t with
    | none => exact h
    | some c =>
      simp only
      rw [contribSum_replace s.contribs t c c2 hf, h]
      ring

/-- Claim C6: after any finite history of tetrahedron creations (each adding
its per-edge contribution), removals (each subtracting the contribution it
registered) and share recomputations, the accumulated
`Edge::cross_section_area_` equals the sum of the contributions of the
currently incident tetrahedra; flat tetrahedra participate with share 0 and
are covered by the general case. -/
theorem c6_crossSection_invariant (ops : List AcctOp) :
    (runAcctOps ops).crossSectionArea
      = contribSum (runAcctOps ops).contribs := by
  rw [runAcctOps]
  have hgen : ∀ (l : List AcctOp) (s : EdgeAcct),
      s.crossSectionArea = contribSum s.contribs →
      (l.foldl applyAcctOp s).crossSectionArea
        = contribSum (l.foldl applyAcctOp s).contribs := by
    intro l
    induction l with
    | nil => intro s hs; exact hs
    | cons op rest ih =>
      intro s hs
      exact ih _ (applyAcctOp_preserves s hs op)
  exact hgen ops initEdgeAcct (by simp [initEdgeAcct, contribSum])

end cx3d
